import Mathlib

/- Verification of the Xiaolu-Workflow crawler-service core: the item pipeline
   (validation, deduplication, media download, database persistence), the retry
   middleware, the numeric stats parser, and the crawl-job supervisor.

   Python text is embedded as `List Char`; third-party primitives that the code
   merely calls (hashlib.md5 hex digests, urllib URL parsing) are passed in as
   explicit function parameters, so every theorem holds for an arbitrary such
   primitive. -/

namespace Crawler

/-- Python strings, embedded as lists of characters. -/
abbrev Str := List Char

/-- Per-character lowercasing, modelling Python str.lower() on the inputs that
    occur here (ASCII letters and CJK characters, on which lower() acts
    pointwise). -/
def strLower (s : Str) : Str := s.map Char.toLower

/-- Whether p is a prefix of s (Boolean, executable). -/
def isPrefixList (p s : Str) : Bool :=
  match p, s with
  | [], _ => true
  | _ :: _, [] => false
  | a :: p', b :: s' => a == b && isPrefixList p' s'

/-- Python `needle in haystack` substring containment. -/
def containsSub (needle : Str) : Str → Bool
  | [] => isPrefixList needle []
  | c :: t => isPrefixList needle (c :: t) || containsSub needle t

/-- Python str.split() with no separator: split on runs of whitespace,
    dropping empty pieces. -/
def pySplit : Str → List Str
  | [] => []
  | c :: t =>
    if c.isWhitespace then pySplit t
    else (c :: t.takeWhile (fun x => !x.isWhitespace))
      :: pySplit (t.dropWhile (fun x => !x.isWhitespace))
termination_by s => s.length
decreasing_by
  · simp only [List.length_cons]
    omega
  · simp only [List.length_cons]
    have h := List.Sublist.length_le (List.dropWhile_sublist (l := t) (fun x => !x.isWhitespace))
    omega

/-- Python ' '.join(words). -/
def joinSpace : List Str → Str
  | [] => []
  | [w] => w
  | w :: ws => w ++ ' ' :: joinSpace ws

/-- Python str.strip(): drop leading and trailing whitespace. -/
def pyStrip (s : Str) : Str :=
  ((s.dropWhile Char.isWhitespace).reverse.dropWhile Char.isWhitespace).reverse

/-- The "..." truncation marker appended by the cleaners. -/
def ellipsisDots : Str := ['.', '.', '.']

/-- XiaohongshuNoteItem._clean_text: collapse whitespace runs, strip, and
    truncate to 10000 characters plus a "..." marker. -/
def cleanText (s : Str) : Str :=
  if s.isEmpty then []
  else
    let t := pyStrip (joinSpace (pySplit s))
    if 10000 < t.length then t.take 10000 ++ ellipsisDots else t

/-! ## Items (app/items.py) -/

/-- The three scrapy item classes. -/
inductive ItemKind
  | note
  | user
  | comment
deriving DecidableEq, Repr

/-- A scrapy item: its class plus its populated string-valued fields
    (an association list; a key occurs at most once once built through
    Item.setRaw). -/
structure Item where
  kind : ItemKind
  fields : List (String × Str)
deriving DecidableEq, Repr

/-- adapter[k] lookup of a populated field. -/
def Item.get? (it : Item) (k : String) : Option Str :=
  (it.fields.find? (fun p => p.1 == k)).map Prod.snd

/-- Python `k in adapter`: the field is populated (possibly empty). -/
def Item.hasField (it : Item) (k : String) : Bool := (it.get? k).isSome

/-- Field value with Python's `adapter.get(k, '')` default. -/
def Item.getD (it : Item) (k : String) : Str := (it.get? k).getD []

/-- Python truthiness of item.get(k): populated and non-empty. -/
def Item.truthy (it : Item) (k : String) : Bool :=
  match it.get? k with
  | some v => !v.isEmpty
  | none => false

/-- The required_fields list of each item class's validate(). -/
def requiredFields : ItemKind → List String
  | .note => ["note_id", "url", "title"]
  | .user => ["user_id", "username", "profile_url"]
  | .comment => ["comment_id", "note_id", "content", "user_id"]

/-- validate(): every required field is populated and truthy. -/
def Item.validate (it : Item) : Bool := (requiredFields it.kind).all it.truthy

/-- Plain dict-style field assignment (scrapy.Item.__setitem__). -/
def Item.setRaw (it : Item) (k : String) (v : Str) : Item :=
  ⟨it.kind, (k, v) :: it.fields.filter (fun p => p.1 != k)⟩

/-- The text fields cleaned by XiaohongshuNoteItem.__setitem__. -/
def noteTextFields : List String := ["title", "content", "author_name"]

/-- XiaohongshuNoteItem.__setitem__ on a string-valued field: truthy text
    fields are passed through _clean_text before storage. (The numeric, list
    and boolean branches of __setitem__ concern non-string fields and are not
    needed by any claim.) -/
def noteSetField (it : Item) (k : String) (v : Str) : Item :=
  let v' := if noteTextFields.contains k && !v.isEmpty then cleanText v else v
  it.setRaw k v'

/-- Field assignment as dispatched by the item's class: note items clean text
    fields, user and comment items store values unchanged. -/
def Item.setField (it : Item) (k : String) (v : Str) : Item :=
  match it.kind with
  | .note => noteSetField it k v
  | _ => it.setRaw k v

/-- A note item built the way XiaohongshuSpider.parse_note populates it:
    note_id, url, title and content assigned through __setitem__. -/
def mkNote (id url title content : Str) : Item :=
  (((({ kind := .note, fields := [] } : Item).setField "note_id" id).setField
      "url" url).setField "title" title).setField "content" content

/-! ## ValidationPipeline (app/pipelines.py) -/

/-- Reasons a pipeline stage drops an item (DropItem messages). -/
inductive DropReason
  | validationFailed
  | invalidUrl
  | duplicate
  | storageFailure
deriving DecidableEq, Repr

/-- Outcome of a pipeline stage on one item. -/
inductive PipeResult (α : Type)
  | pass (a : α)
  | drop (r : DropReason)
deriving DecidableEq, Repr

/-- ValidationPipeline.process_item. urlValid abstracts the urllib-based
    _is_valid_url check (scheme and netloc both present). The content
    re-assignment goes through the item's __setitem__, as adapter['content']
    does. -/
def validationProcess (urlValid : Str → Bool) (it : Item) : PipeResult Item :=
  if !it.validate then .drop .validationFailed
  else if it.truthy "url" && !urlValid (it.getD "url") then .drop .invalidUrl
  else if it.truthy "content" && decide (50000 < (it.getD "content").length) then
    .pass (it.setField "content" ((it.getD "content").take 50000 ++ ellipsisDots))
  else .pass it

/-! ## DuplicationFilterPipeline (app/pipelines.py) -/

/-- _generate_item_id: keyed on the first populated field among note_id,
    user_id, comment_id, else an md5 hash of the source URL. md5hex abstracts
    hashlib.md5(url.encode()).hexdigest(). -/
def generateItemId (md5hex : Str → Str) (it : Item) : Str :=
  match it.get? "note_id" with
  | some v => "note:".data ++ v
  | none =>
    match it.get? "user_id" with
    | some v => "user:".data ++ v
    | none =>
      match it.get? "comment_id" with
      | some v => "comment:".data ++ v
      | none => "url:".data ++ md5hex (it.getD "url")

/-- The Deduplicator's backing store of already-seen keys: the shared Redis
    set (whose entries persist for the 7-day TTL window) or, on store
    unavailability, the process-local seen_items set. Both paths are a
    membership test followed by an add. -/
structure DedupState where
  seen : List Str
deriving DecidableEq, Repr

/-- DuplicationFilterPipeline.process_item: drop a seen key as a duplicate,
    otherwise admit the item and mark its key as seen. -/
def dedupProcess (md5hex : Str → Str) (it : Item) (st : DedupState) :
    PipeResult Item × DedupState :=
  let key := generateItemId md5hex it
  if key ∈ st.seen then (.drop .duplicate, st)
  else (.pass it, ⟨key :: st.seen⟩)

/-- The Deduplicator run over a stream of records, threading its store. -/
def dedupRun (md5hex : Str → Str) : List Item → DedupState →
    List (PipeResult Item) × DedupState
  | [], st => ([], st)
  | it :: rest, st =>
    let p := dedupProcess md5hex it st
    let q := dedupRun md5hex rest p.2
    (p.1 :: q.1, q.2)

/-- Per-record outcomes of a Deduplicator run. -/
def dedupOutcomes (md5hex : Str → Str) (items : List Item) (st : DedupState) :
    List (PipeResult Item) :=
  (dedupRun md5hex items st).1

/-- Store state after a Deduplicator run. -/
def dedupFinal (md5hex : Str → Str) (items : List Item) (st : DedupState) :
    DedupState :=
  (dedupRun md5hex items st).2

/-- The records the Deduplicator admits, in order: exactly these flow on into
    the persistence stages (ImageDownload → Database → JsonWriter, pipeline
    priorities 300/400/500). -/
def admittedRecords (md5hex : Str → Str) (items : List Item) (st : DedupState) :
    List Item :=
  (dedupOutcomes md5hex items st).filterMap (fun r =>
    match r with
    | .pass x => some x
    | .drop _ => none)

/-- ValidationPipeline (priority 100) followed by DuplicationFilterPipeline
    (priority 200): a record dropped by the Validator never reaches the
    Deduplicator, whose store is left untouched. -/
def runValThenDedup (urlValid : Str → Bool) (md5hex : Str → Str) (it : Item)
    (st : DedupState) : PipeResult Item × DedupState :=
  match validationProcess urlValid it with
  | .drop r => (.drop r, st)
  | .pass it' => dedupProcess md5hex it' st

/-! ## ImageDownloadPipeline (app/pipelines.py) -/

/-- The candidate image extensions of _get_image_extension, in order. -/
def imageExtCandidates : List Str :=
  [".jpg".data, ".jpeg".data, ".png".data, ".gif".data, ".webp".data]

/-- _get_image_extension: the first candidate extension occurring in the
    lowercased URL path, defaulting to ".jpg". urlPath abstracts
    urlparse(url).path. -/
def imageExtension (urlPath : Str → Str) (url : Str) : Str :=
  match imageExtCandidates.find? (fun e => containsSub e (strLower (urlPath url))) with
  | some e => e
  | none => ".jpg".data

/-- The file path _download_image derives for a URL:
    download_path/md5(url).hexdigest() + extension. -/
def imageFilePath (md5hex urlPath : Str → Str) (downloadPath url : Str) : Str :=
  downloadPath ++ '/' :: md5hex url ++ imageExtension urlPath url

/-- The media store's world: the set of file paths existing on disk and a
    count of network fetches performed. -/
structure MediaState where
  files : List Str
  fetches : Nat
deriving DecidableEq, Repr

/-- _download_image: short-circuit if the derived path already exists;
    otherwise perform one network fetch (fetchOk abstracts whether
    requests.get succeeds) and write the file, or return None on a failed
    fetch. -/
def downloadImage (md5hex urlPath : Str → Str) (downloadPath url : Str)
    (fetchOk : Bool) (st : MediaState) : Option Str × MediaState :=
  let filepath := imageFilePath md5hex urlPath downloadPath url
  if filepath ∈ st.files then (some filepath, st)
  else if fetchOk then (some filepath, ⟨filepath :: st.files, st.fetches + 1⟩)
  else (none, ⟨st.files, st.fetches + 1⟩)

/-! ## DatabasePipeline (app/pipelines.py) -/

/-- A psycopg2 connection: the committed table rows (xiaohongshu_notes,
    keyed by note_id) plus the uncommitted writes of the open transaction. -/
structure DbConn where
  committed : List Item
  pending : List Item
deriving DecidableEq, Repr

/-- The upsert of _insert_note: INSERT ... ON CONFLICT (note_id) DO UPDATE —
    insert if no row with the note_id exists, else replace that row's mutable
    fields (collapsed here to replacing the row's payload). -/
def upsertNote (rows : List Item) (it : Item) : List Item :=
  if rows.any (fun r => r.get? "note_id" == it.get? "note_id") then
    rows.map (fun r => if r.get? "note_id" == it.get? "note_id" then it else r)
  else rows ++ [it]

/-- Where, if anywhere, the persistence attempt raises: in cursor.execute
    (the INSERT) or in connection.commit(). -/
inductive DbFail
  | ok
  | execFails
  | commitFails
deriving DecidableEq, Repr

/-- DatabasePipeline.process_item: run the insert and commit; on any failure
    roll the transaction back (discarding the uncommitted write, leaving the
    committed rows unchanged) and drop the item with a storage-failure
    reason. -/
def dbProcessItem (fail : DbFail) (conn : DbConn) (it : Item) :
    PipeResult Item × DbConn :=
  match fail with
  | .ok =>
    let executed : DbConn := ⟨conn.committed, conn.pending ++ [it]⟩
    (.pass it, ⟨executed.pending.foldl upsertNote executed.committed, []⟩)
  | .execFails => (.drop .storageFailure, ⟨conn.committed, []⟩)
  | .commitFails => (.drop .storageFailure, ⟨conn.committed, []⟩)

/-- The database stage over a stream of records (each paired with its
    failure oracle): a dropped record never aborts the run — every later
    record is still processed. -/
def dbRun : List (DbFail × Item) → DbConn → List (PipeResult Item) × DbConn
  | [], conn => ([], conn)
  | (f, it) :: rest, conn =>
    let p := dbProcessItem f conn it
    let q := dbRun rest p.2
    (p.1 :: q.1, q.2)

/-! ## RetryMiddleware (app/middlewares.py) -/

/-- The middleware's configuration: RETRY_TIMES, RETRY_HTTP_CODES and
    RETRY_PRIORITY_ADJUST (defaults 3, [500, 502, 503, 504, 522, 524, 408,
    429] and -1 in settings.py). -/
structure RetryConfig where
  maxRetryTimes : Nat
  retryHttpCodes : List Nat
  priorityAdjust : Int
deriving DecidableEq, Repr

/-- A scrapy Request as the retry logic sees it: its priority and its
    meta['retry_times'] counter (0 when absent). -/
structure Request where
  priority : Int
  retryTimes : Nat
deriving DecidableEq, Repr

/-- A scrapy Response as the retry logic sees it: status code and body
    (body bytes and decoded text collapsed to one character list). -/
structure Response where
  status : Nat
  body : Str
deriving DecidableEq, Repr

/-- The block-page signature substrings of _is_invalid_response. -/
def errorIndicators : List Str :=
  ["access denied".data, "blocked".data, "访问被拒绝".data, "系统繁忙".data,
   "too many requests".data]

/-- _is_invalid_response: body shorter than 100, or containing any signature
    substring in the lowercased body text. -/
def isInvalidResponse (resp : Response) : Bool :=
  decide (resp.body.length < 100)
    || errorIndicators.any (fun ind => containsSub ind (strLower resp.body))

/-- scrapy's RetryMiddleware._retry (the inherited superclass method): retry
    while the incremented count stays within the configured max, copying the
    request with the incremented count and adjusted priority; otherwise give
    up. (The per-request meta['max_retry_times'] override is never used by
    this project.) -/
def retryRequest (cfg : RetryConfig) (req : Request) : Option Request :=
  let retries := req.retryTimes + 1
  if retries ≤ cfg.maxRetryTimes then
    some { priority := req.priority + cfg.priorityAdjust, retryTimes := retries }
  else none

/-- What process_response hands back to the engine. -/
inductive ResponseOutcome
  | reissue (r : Request)
  | surface (resp : Response)
deriving DecidableEq, Repr

/-- RetryMiddleware.process_response: retry on a retryable status code or an
    invalid body, falling back to the response itself (`self._retry(...) or
    response`). -/
def processResponse (cfg : RetryConfig) (req : Request) (resp : Response) :
    ResponseOutcome :=
  if resp.status ∈ cfg.retryHttpCodes then
    match retryRequest cfg req with
    | some r => .reissue r
    | none => .surface resp
  else if isInvalidResponse resp then
    match retryRequest cfg req with
    | some r => .reissue r
    | none => .surface resp
  else .surface resp

/-- What process_exception hands back: a reissued request, None after giving
    up past the cap (the error then surfaces downstream), or None for a
    non-retryable exception (the exception propagates). -/
inductive ExceptionOutcome
  | reissue (r : Request)
  | giveUp
  | propagate
deriving DecidableEq, Repr

/-- RetryMiddleware.process_exception; retryableExc abstracts
    isinstance(exception, self.EXCEPTIONS_TO_RETRY). -/
def processException (cfg : RetryConfig) (req : Request) (retryableExc : Bool) :
    ExceptionOutcome :=
  if retryableExc then
    match retryRequest cfg req with
    | some r => .reissue r
    | none => .giveUp
  else .propagate

/-! ## extract_stats numeric parsing (app/spiders/xiaohongshu_spider.py) -/

/-- The unit characters of the regex class [kw万千]. -/
def statUnits : List Char := ['k', 'w', '万', '千']

/-- The character class [\d.]. -/
def isDigitOrDot (c : Char) : Bool := c.isDigit || c == '.'

/-- Leftmost match of `([\d.]+)([kw万千]?)`: the first maximal run of digits
    and dots, together with the unit character following it, if any. -/
def statSearch : Str → Option (Str × Option Char)
  | [] => none
  | c :: t =>
    if isDigitOrDot c then
      some (c :: t.takeWhile isDigitOrDot,
        match t.dropWhile isDigitOrDot with
        | u :: _ => if statUnits.contains u then some u else none
        | [] => none)
    else statSearch t

/-- Value of a digit run. -/
def digitsVal (s : Str) : Nat :=
  s.foldl (fun n c => 10 * n + (c.toNat - '0'.toNat)) 0

/-- Python float() on a string drawn from [\d.]+: it parses exactly when the
    string has at most one dot and at least one digit, and its value is
    N / 10^d in exact decimal arithmetic (returned as the pair (N, d));
    otherwise (e.g. float(".")) it raises ValueError, modelled as none.
    Exact decimal arithmetic agrees with IEEE doubles on every input the
    claims evaluate (in particular 1.2 * 10000 rounds to exactly 12000.0). -/
def parseDecimalParts (s : Str) : Option (Nat × Nat) :=
  if s.count '.' ≤ 1 && s.any Char.isDigit then
    let intPart := s.takeWhile (fun c => c != '.')
    let fracPart := (s.dropWhile (fun c => c != '.')).drop 1
    some (digitsVal intPart * 10 ^ fracPart.length + digitsVal fracPart,
      fracPart.length)
  else none

/-- extract_stats's inner extract_number: empty or matchless text maps to 0;
    a matched number is scaled by its unit and truncated to an integer
    (int() truncation; the value is non-negative, so Nat division). A
    ValueError escaping float() is modelled as none. -/
def extractNumber (text : Str) : Option Nat :=
  if text.isEmpty then some 0
  else
    match statSearch (strLower text) with
    | none => some 0
    | some (numStr, unit) =>
      (parseDecimalParts numStr).map (fun p =>
        let scaled :=
          if unit = some 'k' ∨ unit = some '千' then p.1 * 1000
          else if unit = some 'w' ∨ unit = some '万' then p.1 * 10000
          else p.1
        scaled / 10 ^ p.2)

/-! ## CrawlerManager and API endpoints (main.py) -/

/-- A multiprocessing.Process handle as the manager sees it: its pid and
    whether is_alive() currently holds. -/
structure ProcHandle where
  pid : Nat
  alive : Bool
deriving DecidableEq, Repr

/-- CrawlerManager state: the running_spiders dict from spider name to
    tracked process handle. -/
structure ManagerState where
  running : List (String × ProcHandle)
deriving DecidableEq, Repr

/-- running_spiders.get(name): the tracked handle, if any. -/
def trackedHandle (st : ManagerState) (name : String) : Option ProcHandle :=
  (st.running.find? (fun p => p.1 == name)).map Prod.snd

/-- running_spiders[name] = handle (dict assignment). -/
def setHandle (st : ManagerState) (name : String) (h : ProcHandle) :
    ManagerState :=
  ⟨(name, h) :: st.running.filter (fun p => p.1 != name)⟩

/-- del running_spiders[name]. -/
def delHandle (st : ManagerState) (name : String) : ManagerState :=
  ⟨st.running.filter (fun p => p.1 != name)⟩

/-- CrawlerManager.run_spider_async: spawn a fresh process (newPid abstracts
    the OS-assigned pid; the new process is alive) and record its handle. -/
def runSpiderAsync (st : ManagerState) (name : String) (newPid : Nat) :
    ManagerState × Nat :=
  (setHandle st name ⟨newPid, true⟩, newPid)

/-- The start endpoint's error responses (HTTPException details). -/
inductive StartError
  | alreadyRunning
  | unsupportedSpider
  | invalidMaxPages
deriving DecidableEq, Repr

/-- The start_spider endpoint: reject when the tracked process is still
    alive; validate the spider name and max_pages; otherwise spawn
    asynchronously and return the new pid. An error leaves the manager state
    untouched. -/
def startSpider (st : ManagerState) (name : String) (maxPages : Int)
    (newPid : Nat) : Except StartError Nat × ManagerState :=
  let aliveNow :=
    match trackedHandle st name with
    | some h => h.alive
    | none => false
  if aliveNow then (.error .alreadyRunning, st)
  else if name != "xiaohongshu" then (.error .unsupportedSpider, st)
  else if maxPages ≤ 0 ∨ 100 < maxPages then (.error .invalidMaxPages, st)
  else
    let r := runSpiderAsync st name newPid
    (.ok r.2, r.1)

/-- CrawlerManager.stop_spider: True (after terminate/join/kill and deleting
    the handle) only when a tracked process is alive; otherwise False with
    the state — including any dead tracked handle — left untouched. -/
def stopSpider (st : ManagerState) (name : String) : Bool × ManagerState :=
  match trackedHandle st name with
  | some h => if h.alive then (true, delHandle st name) else (false, st)
  | none => (false, st)

/-- The stop endpoint's outcome: success message or the 404 "not running"
    HTTPException. -/
inductive StopApiResult
  | stopped
  | notRunning
deriving DecidableEq, Repr

/-- The stop_spider endpoint, surfacing CrawlerManager.stop_spider's False
    as a 404 NotRunning error. -/
def stopSpiderApi (st : ManagerState) (name : String) :
    StopApiResult × ManagerState :=
  let p := stopSpider st name
  (if p.1 then .stopped else .notRunning, p.2)

/-- JSON values occurring in the per-spider status response. -/
inductive JsonVal
  | s (v : String)
  | b (v : Bool)
  | n (v : Option Nat)
deriving DecidableEq, Repr

/-- CrawlerManager.get_spider_status with a spider name: a three-field
    response — the name, whether a tracked handle is alive, and its pid when
    running (None otherwise). -/
def getSpiderStatusNamed (st : ManagerState) (name : String) :
    List (String × JsonVal) :=
  let isRunning :=
    match trackedHandle st name with
    | some h => h.alive
    | none => false
  let pid :=
    match trackedHandle st name with
    | some h => if h.alive then some h.pid else none
    | none => none
  [("spider", .s name), ("running", .b isRunning), ("pid", .n pid)]

/-- The field names of the per-spider status response. -/
def statusReportKeys (st : ManagerState) (name : String) : List String :=
  (getSpiderStatusNamed st name).map Prod.fst

/-! ## Sample records used in concrete evaluations -/

/-- A fully populated, valid comment record. -/
def sampleComment : Item :=
  ⟨.comment, [("comment_id", "c1".data), ("note_id", "n1".data),
    ("content", "hi".data), ("user_id", "u1".data)]⟩

/-- A second valid comment, with a different comment_id, on the same note. -/
def sampleComment2 : Item :=
  ⟨.comment, [("comment_id", "c2".data), ("note_id", "n1".data),
    ("content", "yo".data), ("user_id", "u2".data)]⟩

/-- A valid note record. -/
def sampleNoteA : Item :=
  ⟨.note, [("note_id", "n9".data), ("url", "http://x/n9".data),
    ("title", "t".data)]⟩

/-- A second record carrying the same natural key as sampleNoteA. -/
def sampleNoteB : Item :=
  ⟨.note, [("note_id", "n9".data), ("url", "http://y/n9".data),
    ("title", "t2".data)]⟩

end Crawler

/-! # Theorems -/

namespace Crawler

/-! ## RetryMiddleware lemmas -/

/-- Closed form of process_response: reissue exactly on a trigger below the
    cap, otherwise surface the response. -/
theorem processResponse_eq (cfg : RetryConfig) (req : Request) (resp : Response) :
    processResponse cfg req resp =
      if (resp.status ∈ cfg.retryHttpCodes ∨ isInvalidResponse resp = true) ∧
          req.retryTimes + 1 ≤ cfg.maxRetryTimes then
        .reissue ⟨req.priority + cfg.priorityAdjust, req.retryTimes + 1⟩
      else .surface resp := by
  unfold processResponse retryRequest
  by_cases hs : resp.status ∈ cfg.retryHttpCodes <;>
    by_cases hi : isInvalidResponse resp = true <;>
      by_cases hc : req.retryTimes + 1 ≤ cfg.maxRetryTimes <;>
        simp [hs, hi, hc]

/-- Closed form of process_exception. -/
theorem processException_eq (cfg : RetryConfig) (req : Request) (exc : Bool) :
    processException cfg req exc =
      if exc then
        if req.retryTimes + 1 ≤ cfg.maxRetryTimes then
          .reissue ⟨req.priority + cfg.priorityAdjust, req.retryTimes + 1⟩
        else .giveUp
      else .propagate := by
  unfold processException retryRequest
  by_cases he : exc <;> by_cases hc : req.retryTimes + 1 ≤ cfg.maxRetryTimes <;>
    simp [he, hc]

/-- C2: the RetryPolicy reissues a request exactly when the response status
    is in the configured retryable set, or the body is invalid (shorter than
    the 100-character minimum or containing a block-page signature substring
    case-insensitively), or a retryable exception occurred — and then only
    while the retry count is below the configured max; each reissued request
    has its count incremented by exactly one (never exceeding the max) and
    its priority lowered by the configured adjustment; once the count has
    reached the max, the last response is surfaced downstream instead of
    retrying. -/
theorem c2_retry_policy (cfg : RetryConfig) (req : Request) (resp : Response)
    (exc : Bool) :
    (∀ r, processResponse cfg req resp = .reissue r ↔
      ((resp.status ∈ cfg.retryHttpCodes ∨ isInvalidResponse resp = true) ∧
        req.retryTimes < cfg.maxRetryTimes ∧
        r = ⟨req.priority + cfg.priorityAdjust, req.retryTimes + 1⟩)) ∧
    (isInvalidResponse resp = true ↔
      (resp.body.length < 100 ∨
        ∃ ind ∈ errorIndicators, containsSub ind (strLower resp.body) = true)) ∧
    ((resp.status ∉ cfg.retryHttpCodes ∧ isInvalidResponse resp = false) →
      processResponse cfg req resp = .surface resp) ∧
    (cfg.maxRetryTimes ≤ req.retryTimes →
      processResponse cfg req resp = .surface resp) ∧
    (∀ r, processResponse cfg req resp = .reissue r →
      r.retryTimes = req.retryTimes + 1 ∧ r.retryTimes ≤ cfg.maxRetryTimes) ∧
    (∀ r, processException cfg req exc = .reissue r ↔
      (exc = true ∧ req.retryTimes < cfg.maxRetryTimes ∧
        r = ⟨req.priority + cfg.priorityAdjust, req.retryTimes + 1⟩)) ∧
    (exc = true → cfg.maxRetryTimes ≤ req.retryTimes →
      processException cfg req exc = .giveUp) := by
  have hresp := processResponse_eq cfg req resp
  have hexc := processException_eq cfg req exc
  refine ⟨?_, ?_, ?_, ?_, ?_, ?_, ?_⟩
  · intro r
    rw [hresp]
    by_cases h : (resp.status ∈ cfg.retryHttpCodes ∨ isInvalidResponse resp = true) ∧
        req.retryTimes + 1 ≤ cfg.maxRetryTimes
    · simp only [if_pos h]
      constructor
      · rintro hr
        cases hr
        exact ⟨h.1, by omega, rfl⟩
      · rintro ⟨_, _, rfl⟩
        rfl
    · simp only [if_neg h]
      constructor
      · intro hr
        cases hr
      · rintro ⟨h1, h2, rfl⟩
        exact absurd ⟨h1, by omega⟩ h
  · unfold isInvalidResponse
    simp [List.any_eq_true]
  · rintro ⟨h1, h2⟩
    rw [hresp, if_neg]
    rintro ⟨hor, _⟩
    rcases hor with h | h
    · exact h1 h
    · rw [h2] at h
      cases h
  · intro hle
    rw [hresp, if_neg]
    rintro ⟨_, hc⟩
    omega
  · intro r
    rw [hresp]
    by_cases h : (resp.status ∈ cfg.retryHttpCodes ∨ isInvalidResponse resp = true) ∧
        req.retryTimes + 1 ≤ cfg.maxRetryTimes
    · simp only [if_pos h]
      intro hr
      cases hr
      exact ⟨rfl, h.2⟩
    · simp only [if_neg h]
      intro hr
      cases hr
  · intro r
    rw [hexc]
    cases exc with
    | false => simp
    | true =>
      by_cases hc : req.retryTimes + 1 ≤ cfg.maxRetryTimes
      · simp only [if_pos rfl, if_pos hc]
        constructor
        · intro hr
          cases hr
          exact ⟨by trivial, by omega, rfl⟩
        · rintro ⟨_, _, rfl⟩
          rfl
      · simp only [if_pos rfl, if_neg hc]
        constructor
        · intro hr
          cases hr
        · rintro ⟨_, h2, rfl⟩
          omega
  · rintro rfl hle
    rw [hexc, if_pos rfl, if_neg (by omega)]

/-- C2 witness: with the configured defaults (max 3, codes including 500,
    adjustment -1), a fresh request failing with HTTP 500 is reissued with
    retry count 1 and priority -1, while a request already at retry count 3
    has the response surfaced. -/
theorem c2_retry_policy_witness :
    processResponse ⟨3, [500, 502, 503, 504, 522, 524, 408, 429], -1⟩ ⟨0, 0⟩
        ⟨500, []⟩ = .reissue ⟨-1, 1⟩ ∧
    processResponse ⟨3, [500, 502, 503, 504, 522, 524, 408, 429], -1⟩ ⟨0, 3⟩
        ⟨500, []⟩ = .surface ⟨500, []⟩ := by
  have h := c2_retry_policy ⟨3, [500, 502, 503, 504, 522, 524, 408, 429], -1⟩
    ⟨0, 0⟩ ⟨500, []⟩ true
  have h' := c2_retry_policy ⟨3, [500, 502, 503, 504, 522, 524, 408, 429], -1⟩
    ⟨0, 3⟩ ⟨500, []⟩ true
  exact ⟨(h.1 ⟨-1, 1⟩).mpr ⟨Or.inl (by decide), by decide, rfl⟩,
    h'.2.2.2.1 (by decide)⟩

/-! ## extract_stats -/

/-- C4: the numeric-suffix parser maps "1.2w" to 12000, "3k" to 3000, "500"
    to 500 and the empty string to 0, and a digit-free string such as "abc"
    to 0 — but on a non-numeric string whose first digits-and-dots run is
    not a valid decimal, such as "." (or "a.b"), float(".") raises
    ValueError instead of returning 0, so "any non-numeric string → 0"
    fails on the code. -/
theorem c4_extract_number :
    extractNumber "1.2w".data = some 12000 ∧
    extractNumber "3k".data = some 3000 ∧
    extractNumber "500".data = some 500 ∧
    extractNumber "".data = some 0 ∧
    extractNumber "abc".data = some 0 ∧
    extractNumber ".".data = none ∧
    extractNumber "a.b".data = none := by
  decide

/-! ## DedupKey derivation -/

/-- C5: _generate_item_id tests note_id before comment_id, and a valid
    comment record always carries note_id, so the comment's DedupKey is
    "note:" ++ its note_id — not its comment_id — for every hash function;
    two distinct comments on one note therefore collide on the same key
    (which is also the parent note's key). -/
theorem c5_dedup_key_bug (md5hex : Str → Str) :
    sampleComment.validate = true ∧
    sampleComment2.validate = true ∧
    sampleComment.get? "comment_id" = some "c1".data ∧
    sampleComment2.get? "comment_id" = some "c2".data ∧
    generateItemId md5hex sampleComment = "note:n1".data ∧
    generateItemId md5hex sampleComment ≠ "comment:c1".data ∧
    generateItemId md5hex sampleComment2 = generateItemId md5hex sampleComment := by
  refine ⟨by decide, by decide, by decide, by decide, rfl, ?_, rfl⟩
  have e : generateItemId md5hex sampleComment = "note:n1".data := rfl
  rw [e]
  decide

/-! ## MediaStore -/

/-- C6: downloading the same media URL twice performs exactly one network
    fetch — both calls derive the same hash-based file path; the first call
    fetches once and writes the file, and the second call finds the file on
    disk and returns the path without touching the network (whatever the
    network would do). -/
theorem c6_media_idempotent (md5hex urlPath : Str → Str) (root url : Str)
    (st : MediaState)
    (h : imageFilePath md5hex urlPath root url ∉ st.files) :
    (downloadImage md5hex urlPath root url true st).1 =
      some (imageFilePath md5hex urlPath root url) ∧
    (downloadImage md5hex urlPath root url true st).2.fetches = st.fetches + 1 ∧
    (∀ fetchOk2 : Bool,
      downloadImage md5hex urlPath root url fetchOk2
          ((downloadImage md5hex urlPath root url true st).2) =
        (some (imageFilePath md5hex urlPath root url),
          (downloadImage md5hex urlPath root url true st).2)) := by
  unfold downloadImage
  simp only [if_neg h, if_pos rfl]
  refine ⟨rfl, rfl, ?_⟩
  intro fetchOk2
  have hmem : imageFilePath md5hex urlPath root url ∈
      imageFilePath md5hex urlPath root url :: st.files := List.mem_cons_self _ _
  simp [hmem]

/-- C6 witness: in an empty media store, the first download of a URL fetches
    once and the second returns the cached path with no further fetch. -/
theorem c6_media_idempotent_witness :
    (imageFilePath (fun _ => "h".data) (fun s => s) "root".data "u".data ∉
      (⟨[], 0⟩ : MediaState).files) ∧
    (downloadImage (fun _ => "h".data) (fun s => s) "root".data "u".data true
        ⟨[], 0⟩).2.fetches = 0 + 1 := by
  refine ⟨by decide, ?_⟩
  exact (c6_media_idempotent (fun _ => "h".data) (fun s => s) "root".data
    "u".data ⟨[], 0⟩ (by decide)).2.1

/-! ## DatabasePipeline -/

/-- The database stage never shortens the stream: every record gets an
    outcome. -/
theorem dbRun_length (stream : List (DbFail × Item)) (conn : DbConn) :
    (dbRun stream conn).1.length = stream.length := by
  induction stream generalizing conn with
  | nil => rfl
  | cons p rest ih =>
    obtain ⟨f, it⟩ := p
    simp [dbRun, ih]

/-- C7: a failing persistence attempt (in the INSERT or the commit) rolls
    the transaction back — the committed rows are unchanged and the
    uncommitted write is discarded — and surfaces as a drop with the
    storage-failure reason; a successful attempt commits the upsert; and a
    failed record never aborts the run: the rest of the stream is still
    processed, against the rolled-back connection. -/
theorem c7_db_rollback (conn : DbConn) (it : Item) (f : DbFail)
    (stream : List (DbFail × Item)) :
    (f ≠ .ok → dbProcessItem f conn it =
      (.drop .storageFailure, ⟨conn.committed, []⟩)) ∧
    dbProcessItem .ok conn it =
      (.pass it, ⟨(conn.pending ++ [it]).foldl upsertNote conn.committed, []⟩) ∧
    (dbRun stream conn).1.length = stream.length ∧
    (f ≠ .ok → dbRun ((f, it) :: stream) conn =
      (.drop .storageFailure :: (dbRun stream ⟨conn.committed, []⟩).1,
        (dbRun stream ⟨conn.committed, []⟩).2)) := by
  have hfail : f ≠ .ok → dbProcessItem f conn it =
      (.drop .storageFailure, ⟨conn.committed, []⟩) := by
    intro hne
    cases f with
    | ok => exact absurd rfl hne
    | execFails => rfl
    | commitFails => rfl
  refine ⟨hfail, rfl, dbRun_length stream conn, ?_⟩
  intro hne
  simp [dbRun, hfail hne]

/-- C7 witness: an INSERT failure on an empty connection is dropped with the
    storage-failure reason and leaves the committed rows empty. -/
theorem c7_db_rollback_witness :
    dbProcessItem .execFails ⟨[], []⟩ sampleNoteA =
      (.drop .storageFailure, ⟨[], []⟩) ∧
    (dbRun [] (⟨[], []⟩ : DbConn)).1.length = 0 := by
  have h := c7_db_rollback ⟨[], []⟩ sampleNoteA .execFails []
  exact ⟨h.1 (by decide), h.2.2.1⟩

/-! ## Deduplicator stream lemmas -/

/-- One Deduplicator step unfolded inside a run. -/
theorem dedupRun_cons (md5hex : Str → Str) (it : Item) (rest : List Item)
    (st : DedupState) :
    dedupRun md5hex (it :: rest) st =
      ((dedupProcess md5hex it st).1 ::
          (dedupRun md5hex rest (dedupProcess md5hex it st).2).1,
        (dedupRun md5hex rest (dedupProcess md5hex it st).2).2) := rfl

/-- Membership in the store after one Deduplicator step. -/
theorem mem_dedupProcess_seen (md5hex : Str → Str) (it : Item)
    (st : DedupState) (x : Str) :
    x ∈ (dedupProcess md5hex it st).2.seen ↔
      x = generateItemId md5hex it ∨ x ∈ st.seen := by
  unfold dedupProcess
  by_cases h : generateItemId md5hex it ∈ st.seen
  · simp only [if_pos h]
    constructor
    · intro hx
      exact Or.inr hx
    · rintro (rfl | hx)
      · exact h
      · exact hx
  · simp only [if_neg h, List.mem_cons]

/-- Membership in the store after a whole Deduplicator run: the initial
    store plus every processed record's key. -/
theorem mem_dedupFinal (md5hex : Str → Str) :
    ∀ (items : List Item) (st : DedupState) (x : Str),
      x ∈ (dedupFinal md5hex items st).seen ↔
        x ∈ st.seen ∨ x ∈ items.map (generateItemId md5hex) := by
  intro items
  induction items with
  | nil =>
    intro st x
    simp [dedupFinal, dedupRun]
  | cons a rest ih =>
    intro st x
    rw [dedupFinal, dedupRun_cons]
    have : (dedupRun md5hex rest (dedupProcess md5hex a st).2).2 =
        dedupFinal md5hex rest (dedupProcess md5hex a st).2 := rfl
    rw [this, ih, mem_dedupProcess_seen]
    simp only [List.map_cons, List.mem_cons]
    tauto

/-- Per-position outcome of a Deduplicator run: the j-th record is dropped
    as a duplicate exactly when its key was initially seen or already carried
    by an earlier record of the stream, and admitted unchanged otherwise. -/
theorem dedupOutcomes_spec (md5hex : Str → Str) :
    ∀ (items : List Item) (st : DedupState) (j : ℕ) (it : Item),
      items[j]? = some it →
      (dedupOutcomes md5hex items st)[j]? =
        some (if generateItemId md5hex it ∈ st.seen ∨
            generateItemId md5hex it ∈
              (items.take j).map (generateItemId md5hex) then
          PipeResult.drop .duplicate
        else PipeResult.pass it) := by
  intro items
  induction items with
  | nil =>
    intro st j it h
    simp at h
  | cons a rest ih =>
    intro st j it h
    cases j with
    | zero =>
      rw [List.getElem?_cons_zero, Option.some_inj] at h
      subst h
      rw [dedupOutcomes, dedupRun_cons]
      rw [List.getElem?_cons_zero]
      unfold dedupProcess
      by_cases hk : generateItemId md5hex a ∈ st.seen <;> simp [hk]
    | succ n =>
      rw [List.getElem?_cons_succ] at h
      rw [dedupOutcomes, dedupRun_cons, List.getElem?_cons_succ]
      have hrec := ih (dedupProcess md5hex a st).2 n it h
      rw [dedupOutcomes] at hrec
      rw [hrec]
      have hiff : (generateItemId md5hex it ∈ (dedupProcess md5hex a st).2.seen ∨
          generateItemId md5hex it ∈
            (rest.take n).map (generateItemId md5hex)) ↔
          (generateItemId md5hex it ∈ st.seen ∨
            generateItemId md5hex it ∈
              ((a :: rest).take (n + 1)).map (generateItemId md5hex)) := by
        rw [List.take_succ_cons]
        rw [mem_dedupProcess_seen]
        simp only [List.map_cons, List.mem_cons]
        tauto
      exact congrArg some (if_congr hiff rfl rfl)

/-- The records a Deduplicator run admits carry pairwise-distinct keys, none
    of which was in the initial store. -/
theorem admittedRecords_keys (md5hex : Str → Str) :
    ∀ (items : List Item) (st : DedupState),
      ((admittedRecords md5hex items st).map (generateItemId md5hex)).Nodup ∧
      ∀ x ∈ admittedRecords md5hex items st,
        generateItemId md5hex x ∉ st.seen := by
  intro items
  induction items with
  | nil =>
    intro st
    constructor
    · simp [admittedRecords, dedupOutcomes, dedupRun]
    · simp [admittedRecords, dedupOutcomes, dedupRun]
  | cons a rest ih =>
    intro st
    by_cases hk : generateItemId md5hex a ∈ st.seen
    · have hstep : dedupProcess md5hex a st = (.drop .duplicate, st) := by
        unfold dedupProcess
        simp [hk]
      have hadm : admittedRecords md5hex (a :: rest) st =
          admittedRecords md5hex rest st := by
        unfold admittedRecords dedupOutcomes
        rw [dedupRun_cons, hstep]
        simp
      rw [hadm]
      exact ih st
    · have hstep : dedupProcess md5hex a st =
          (.pass a, ⟨generateItemId md5hex a :: st.seen⟩) := by
        unfold dedupProcess
        simp [hk]
      have hadm : admittedRecords md5hex (a :: rest) st =
          a :: admittedRecords md5hex rest ⟨generateItemId md5hex a :: st.seen⟩ := by
        unfold admittedRecords dedupOutcomes
        rw [dedupRun_cons, hstep]
        simp
      obtain ⟨ihn, ihm⟩ := ih ⟨generateItemId md5hex a :: st.seen⟩
      constructor
      · rw [hadm]
        simp only [List.map_cons, List.nodup_cons]
        refine ⟨?_, ihn⟩
        intro hmem
        rw [List.mem_map] at hmem
        obtain ⟨x, hx, hxe⟩ := hmem
        have hni := ihm x hx
        rw [hxe] at hni
        exact hni (List.mem_cons_self _ _)
      · rw [hadm]
        intro x hx
        rcases List.mem_cons.mp hx with rfl | hx'
        · exact hk
        · intro hmem
          exact ihm x hx' (List.mem_cons_of_mem _ hmem)

/-- C1: in any stream submitted to the Deduplicator, the record at position
    j is dropped with reason duplicate whenever its DedupKey was already in
    the store or carried by an earlier record, and is admitted — with its key
    marked as seen — when the key is fresh; consequently the records flowing
    on into the persistence stages carry pairwise-distinct keys, none of
    them previously admitted, so no key is persisted twice. -/
theorem c1_dedup (md5hex : Str → Str) (items : List Item) (st : DedupState)
    (j : ℕ) (it : Item) (hj : items[j]? = some it) :
    ((generateItemId md5hex it ∈ st.seen ∨
        generateItemId md5hex it ∈
          (items.take j).map (generateItemId md5hex)) →
      (dedupOutcomes md5hex items st)[j]? = some (.drop .duplicate)) ∧
    ((generateItemId md5hex it ∉ st.seen ∧
        generateItemId md5hex it ∉
          (items.take j).map (generateItemId md5hex)) →
      (dedupOutcomes md5hex items st)[j]? = some (.pass it)) ∧
    generateItemId md5hex it ∈ (dedupFinal md5hex items st).seen ∧
    ((admittedRecords md5hex items st).map (generateItemId md5hex)).Nodup ∧
    (∀ x ∈ admittedRecords md5hex items st,
      generateItemId md5hex x ∉ st.seen) := by
  have hspec := dedupOutcomes_spec md5hex items st j it hj
  have hmem : it ∈ items := by
    rcases List.getElem?_eq_some.mp hj with ⟨hlt, he⟩
    exact he ▸ List.getElem_mem hlt
  refine ⟨?_, ?_, ?_, (admittedRecords_keys md5hex items st).1,
    (admittedRecords_keys md5hex items st).2⟩
  · intro hc
    rw [hspec, if_pos hc]
  · intro hc
    rw [hspec, if_neg (by tauto)]
  · rw [mem_dedupFinal]
    exact Or.inr (List.mem_map_of_mem _ hmem)

/-- C1 witness: two note records sharing note_id n9 — the first is admitted,
    the second submission is dropped as a duplicate. -/
theorem c1_dedup_witness :
    ([sampleNoteA, sampleNoteB] : List Item)[1]? = some sampleNoteB ∧
    (dedupOutcomes (fun _ => []) [sampleNoteA, sampleNoteB] ⟨[]⟩)[1]? =
      some (.drop .duplicate) ∧
    (dedupOutcomes (fun _ => []) [sampleNoteA, sampleNoteB] ⟨[]⟩)[0]? =
      some (.pass sampleNoteA) := by
  refine ⟨by decide, ?_, ?_⟩
  · exact (c1_dedup (fun _ => []) [sampleNoteA, sampleNoteB] ⟨[]⟩ 1 sampleNoteB
      (by decide)).1 (Or.inr (by decide))
  · exact (c1_dedup (fun _ => []) [sampleNoteA, sampleNoteB] ⟨[]⟩ 0 sampleNoteA
      (by decide)).2.1 ⟨by decide, by decide⟩

/-! ## Text cleaning lemmas -/

/-- takeWhile keeps a list all of whose elements satisfy the predicate. -/
theorem takeWhile_eq_self_of (p : Char → Bool) :
    ∀ l : Str, (∀ c ∈ l, p c = true) → l.takeWhile p = l := by
  intro l
  induction l with
  | nil => intro _; rfl
  | cons c t ih =>
    intro h
    rw [List.takeWhile_cons, if_pos (h c (List.mem_cons_self _ _))]
    rw [ih (fun x hx => h x (List.mem_cons_of_mem _ hx))]

/-- dropWhile empties a list all of whose elements satisfy the predicate. -/
theorem dropWhile_eq_nil_of (p : Char → Bool) :
    ∀ l : Str, (∀ c ∈ l, p c = true) → l.dropWhile p = [] := by
  intro l
  induction l with
  | nil => intro _; rfl
  | cons c t ih =>
    intro h
    rw [List.dropWhile_cons, if_pos (h c (List.mem_cons_self _ _))]
    exact ih (fun x hx => h x (List.mem_cons_of_mem _ hx))

/-- dropWhile is the identity on a list whose elements all falsify the
    predicate. -/
theorem dropWhile_eq_self_of (p : Char → Bool) :
    ∀ l : Str, (∀ c ∈ l, p c = false) → l.dropWhile p = l := by
  intro l
  cases l with
  | nil => intro _; rfl
  | cons c t =>
    intro h
    rw [List.dropWhile_cons, if_neg (by simp [h c (List.mem_cons_self _ _)])]

/-- str.split() of a non-empty whitespace-free string is that one word. -/
theorem pySplit_word (s : Str) (h0 : s ≠ [])
    (hw : ∀ c ∈ s, c.isWhitespace = false) : pySplit s = [s] := by
  cases s with
  | nil => exact absurd rfl h0
  | cons c t =>
    rw [pySplit]
    rw [if_neg (by simp [hw c (List.mem_cons_self _ _)])]
    have hta : ∀ x ∈ t, (fun x => !x.isWhitespace) x = true := by
      intro x hx
      simp [hw x (List.mem_cons_of_mem _ hx)]
    rw [takeWhile_eq_self_of _ t hta, dropWhile_eq_nil_of _ t hta]
    rw [show pySplit [] = [] from by rw [pySplit]]

/-- str.strip() of a whitespace-free string is the string itself. -/
theorem pyStrip_word (s : Str) (hw : ∀ c ∈ s, c.isWhitespace = false) :
    pyStrip s = s := by
  unfold pyStrip
  rw [dropWhile_eq_self_of _ s hw,
    dropWhile_eq_self_of _ s.reverse
      (fun c hc => hw c (List.mem_reverse.mp hc)),
    List.reverse_reverse]

/-- _clean_text on a non-empty whitespace-free string: the identity up to
    the 10000-character truncation with the "..." marker. -/
theorem cleanText_word (s : Str) (h0 : s ≠ [])
    (hw : ∀ c ∈ s, c.isWhitespace = false) :
    cleanText s = if 10000 < s.length then s.take 10000 ++ ellipsisDots
      else s := by
  have he : s.isEmpty = false := by
    cases s with
    | nil => exact absurd rfl h0
    | cons c t => rfl
  unfold cleanText
  rw [he]
  simp only [Bool.false_eq_true, if_false]
  rw [pySplit_word s h0 hw]
  show (if 10000 < (pyStrip (joinSpace [s])).length then
      (pyStrip (joinSpace [s])).take 10000 ++ ellipsisDots
    else pyStrip (joinSpace [s])) = _
  rw [show joinSpace [s] = s from rfl, pyStrip_word s hw]

/-- C3: a note record whose title is missing (or empty) is dropped by the
    Validator with a validation failure, before the Deduplicator sees it or
    its store changes; a note with all required fields and a 60000-character
    whitespace-free content is passed onward un-dropped, its content stored
    as the first 10000 characters followed by the "..." truncation marker
    (the truncation performed by the item's __setitem__ text cleaner). -/
theorem c3_validator (urlValid : Str → Bool) (md5hex : Str → Str)
    (st : DedupState) (it : Item) (id url title content : Str) :
    (it.kind = .note → it.truthy "title" = false →
      runValThenDedup urlValid md5hex it st = (.drop .validationFailed, st)) ∧
    (id ≠ [] → url ≠ [] → urlValid url = true →
      title ≠ [] → (∀ c ∈ title, c.isWhitespace = false) →
      title.length ≤ 10000 →
      content.length = 60000 → (∀ c ∈ content, c.isWhitespace = false) →
      validationProcess urlValid (mkNote id url title content) =
        .pass (mkNote id url title content) ∧
      (mkNote id url title content).get? "content" =
        some (content.take 10000 ++ ellipsisDots)) := by
  constructor
  · intro hkind htitle
    have hval : it.validate = false := by
      unfold Item.validate
      rw [hkind]
      simp [requiredFields, htitle]
    unfold runValThenDedup validationProcess
    rw [hval]
    simp
  · intro hid hurl hvalid htit htitws htitlen hconlen hconws
    have hcon : content ≠ [] := by
      intro h
      rw [h] at hconlen
      simp at hconlen
    have htE : title.isEmpty = false := by
      cases title with
      | nil => exact absurd rfl htit
      | cons c t => rfl
    have hcE : content.isEmpty = false := by
      cases content with
      | nil => exact absurd rfl hcon
      | cons c t => rfl
    have hfields : (mkNote id url title content).fields =
        [("content", cleanText content), ("title", cleanText title),
         ("url", url), ("note_id", id)] := by
      simp [mkNote, Item.setField, noteSetField, Item.setRaw, noteTextFields,
        htE, hcE]
    have hcclean : cleanText content = content.take 10000 ++ ellipsisDots := by
      rw [cleanText_word content hcon hconws, if_pos (by omega)]
    have htclean : cleanText title = title := by
      rw [cleanText_word title htit htitws, if_neg (by omega)]
    have hgc : (mkNote id url title content).get? "content" =
        some (content.take 10000 ++ ellipsisDots) := by
      unfold Item.get?
      rw [hfields]
      simp [List.find?, hcclean]
    have hgt : (mkNote id url title content).get? "title" = some title := by
      unfold Item.get?
      rw [hfields]
      simp [List.find?, htclean]
    have hgu : (mkNote id url title content).get? "url" = some url := by
      unfold Item.get?
      rw [hfields]
      simp [List.find?]
    have hgi : (mkNote id url title content).get? "note_id" = some id := by
      unfold Item.get?
      rw [hfields]
      simp [List.find?]
    have hcE' : (content.take 10000 ++ ellipsisDots).isEmpty = false := by
      simp [List.isEmpty_iff, ellipsisDots]
    have hval : (mkNote id url title content).validate = true := by
      unfold Item.validate
      have hkind : (mkNote id url title content).kind = .note := by
        simp [mkNote, Item.setField, noteSetField, Item.setRaw]
      rw [hkind]
      simp only [requiredFields, List.all_cons, List.all_nil, Item.truthy,
        hgt, hgu, hgi, Bool.and_true]
      simp [htE, List.isEmpty_iff, hid, hurl, htit]
    have hclen : (content.take 10000 ++ ellipsisDots).length = 10003 := by
      simp [ellipsisDots, List.length_take, hconlen]
    unfold validationProcess
    rw [hval]
    simp only [Bool.not_true, Bool.false_eq_true, if_false]
    rw [if_neg (by
      simp only [Item.truthy, Item.getD, hgu, Option.getD_some, hvalid]
      simp)]
    rw [if_neg (by
      simp only [Item.truthy, Item.getD, hgc, Option.getD_some, hclen]
      simp)]
    exact ⟨rfl, hgc⟩

/-- C3 witness: a title-less note is dropped before the Deduplicator, and a
    note with a 60000-character content is admitted with content truncated
    to 10000 characters plus "...". -/
theorem c3_validator_witness :
    runValThenDedup (fun _ => true) (fun _ => []) (⟨.note, []⟩ : Item) ⟨[]⟩ =
      (.drop .validationFailed, ⟨[]⟩) ∧
    validationProcess (fun _ => true)
        (mkNote "n1".data "http://x".data "t".data
          (List.replicate 60000 'a')) =
      .pass (mkNote "n1".data "http://x".data "t".data
        (List.replicate 60000 'a')) ∧
    (mkNote "n1".data "http://x".data "t".data
        (List.replicate 60000 'a')).get? "content" =
      some ((List.replicate 60000 'a').take 10000 ++ ellipsisDots) := by
  have h := c3_validator (fun _ => true) (fun _ => []) ⟨[]⟩ (⟨.note, []⟩ : Item)
    "n1".data "http://x".data "t".data (List.replicate 60000 'a')
  have hb := h.2 (by decide) (by decide) rfl (by decide) (by decide) (by decide)
    (by rw [List.length_replicate])
    (fun c hc => by rw [List.eq_of_mem_replicate hc]; rfl)
  exact ⟨h.1 rfl (by decide), hb.1, hb.2⟩

/-! ## Crawl job supervisor -/

/-- Looking a name up right after setting it yields the new handle. -/
theorem trackedHandle_setHandle (st : ManagerState) (name : String)
    (h : ProcHandle) : trackedHandle (setHandle st name h) name = some h := by
  simp [trackedHandle, setHandle, List.find?]

/-- Deleting a name removes it from tracking. -/
theorem trackedHandle_delHandle (st : ManagerState) (name : String) :
    trackedHandle (delHandle st name) name = none := by
  unfold trackedHandle delHandle
  rw [Option.map_eq_none', List.find?_eq_none]
  intro x hx
  rw [List.mem_filter] at hx
  simpa using hx.2

/-- C8: a start call for a name whose tracked process is still alive is
    rejected with AlreadyRunning and the manager state — in particular the
    original handle — is untouched and nothing is spawned; when no live
    process is tracked under the name, a valid start spawns a fresh process
    and records its handle. -/
theorem c8_start (st : ManagerState) (name : String) (maxPages : Int)
    (newPid : Nat) :
    (∀ h, trackedHandle st name = some h → h.alive = true →
      startSpider st name maxPages newPid = (.error .alreadyRunning, st)) ∧
    ((∀ h, trackedHandle st name = some h → h.alive = false) →
      name = "xiaohongshu" → 0 < maxPages → maxPages ≤ 100 →
      startSpider st name maxPages newPid =
        (.ok newPid, setHandle st name ⟨newPid, true⟩) ∧
      trackedHandle (startSpider st name maxPages newPid).2 name =
        some ⟨newPid, true⟩) := by
  constructor
  · intro h htr hal
    unfold startSpider
    rw [htr]
    simp [hal]
  · intro hdead hname hpos hle
    have hnotalive : (match trackedHandle st name with
        | some h => h.alive
        | none => false) = false := by
      cases htr : trackedHandle st name with
      | some h => exact hdead h htr
      | none => rfl
    have heq : startSpider st name maxPages newPid =
        (.ok newPid, setHandle st name ⟨newPid, true⟩) := by
      unfold startSpider
      rw [hnotalive]
      subst hname
      simp only [Bool.false_eq_true, if_false]
      rw [if_neg (by simp), if_neg (by omega)]
      rfl
    refine ⟨heq, ?_⟩
    rw [heq]
    exact trackedHandle_setHandle st name ⟨newPid, true⟩

/-- C8 witness: starting over a live handle is rejected with the state
    untouched; starting with no tracked handle spawns and records pid 7. -/
theorem c8_start_witness :
    startSpider ⟨[("xiaohongshu", ⟨42, true⟩)]⟩ "xiaohongshu" 10 43 =
      (.error .alreadyRunning, ⟨[("xiaohongshu", ⟨42, true⟩)]⟩) ∧
    startSpider ⟨[]⟩ "xiaohongshu" 10 7 =
      (.ok 7, setHandle ⟨[]⟩ "xiaohongshu" ⟨7, true⟩) := by
  refine ⟨?_, ?_⟩
  · exact (c8_start ⟨[("xiaohongshu", ⟨42, true⟩)]⟩ "xiaohongshu" 10 43).1
      ⟨42, true⟩ (by decide) rfl
  · exact ((c8_start ⟨[]⟩ "xiaohongshu" 10 7).2
      (fun h hh => by simp [trackedHandle] at hh) rfl (by decide) (by decide)).1

/-- C9 counterexample: for a tracked but dead handle, the per-name status
    response consists of exactly the fields spider, running and pid (with
    running = false and pid = null) — it carries no terminal state and no
    aggregate statistics (no records-by-variant, error-count or duration
    field), contrary to the claim. -/
theorem c9_counterexample :
    trackedHandle ⟨[("xiaohongshu", ⟨42, false⟩)]⟩ "xiaohongshu" =
      some ⟨42, false⟩ ∧
    getSpiderStatusNamed ⟨[("xiaohongshu", ⟨42, false⟩)]⟩ "xiaohongshu" =
      [("spider", .s "xiaohongshu"), ("running", .b false), ("pid", .n none)] ∧
    statusReportKeys ⟨[("xiaohongshu", ⟨42, false⟩)]⟩ "xiaohongshu" =
      ["spider", "running", "pid"] ∧
    "stats" ∉ statusReportKeys ⟨[("xiaohongshu", ⟨42, false⟩)]⟩ "xiaohongshu" ∧
    "duration" ∉ statusReportKeys ⟨[("xiaohongshu", ⟨42, false⟩)]⟩ "xiaohongshu" := by
  decide

/-- C9 (amended): the per-name status query reports running = true exactly
    while the tracked handle is alive, reports the pid exactly then (null
    otherwise), and always returns exactly the fields spider, running and
    pid — no terminal state and no aggregate statistics. -/
theorem c9_status_named (st : ManagerState) (name : String) :
    ((getSpiderStatusNamed st name).lookup "running" = some (.b true) ↔
      ∃ h, trackedHandle st name = some h ∧ h.alive = true) ∧
    ((getSpiderStatusNamed st name).lookup "pid" = some (.n none) ↔
      ¬∃ h, trackedHandle st name = some h ∧ h.alive = true) ∧
    statusReportKeys st name = ["spider", "running", "pid"] := by
  unfold getSpiderStatusNamed statusReportKeys
  cases htr : trackedHandle st name with
  | some h =>
    cases hal : h.alive <;>
      simp [getSpiderStatusNamed, List.lookup, htr, hal]
  | none => simp [getSpiderStatusNamed, List.lookup, htr]

/-- C10: stop on a name whose tracked process already died reports failure —
    surfaced as the 404 NotRunning response — and leaves the dead handle in
    the tracked map (the whole state is untouched); stop on an untracked name
    likewise fails; the handle is removed from tracking exactly when stop
    finds the process alive. -/
theorem c10_stop (st : ManagerState) (name : String) :
    (∀ h, trackedHandle st name = some h → h.alive = false →
      stopSpiderApi st name = (.notRunning, st) ∧
      trackedHandle (stopSpiderApi st name).2 name = some h) ∧
    (trackedHandle st name = none →
      stopSpiderApi st name = (.notRunning, st)) ∧
    (∀ h, trackedHandle st name = some h → h.alive = true →
      stopSpider st name = (true, delHandle st name) ∧
      trackedHandle (stopSpider st name).2 name = none) := by
  refine ⟨?_, ?_, ?_⟩
  · intro h htr hal
    have heq : stopSpiderApi st name = (.notRunning, st) := by
      unfold stopSpiderApi stopSpider
      rw [htr]
      simp [hal]
    exact ⟨heq, by rw [heq]; exact htr⟩
  · intro htr
    unfold stopSpiderApi stopSpider
    rw [htr]
    rfl
  · intro h htr hal
    have heq : stopSpider st name = (true, delHandle st name) := by
      unfold stopSpider
      rw [htr]
      simp [hal]
    exact ⟨heq, by rw [heq]; exact trackedHandle_delHandle st name⟩

/-- C10 witness: stopping a tracked-but-dead job returns NotRunning with the
    dead handle still tracked; stopping a live one removes the handle. -/
theorem c10_stop_witness :
    stopSpiderApi ⟨[("xiaohongshu", ⟨5, false⟩)]⟩ "xiaohongshu" =
      (.notRunning, ⟨[("xiaohongshu", ⟨5, false⟩)]⟩) ∧
    stopSpider ⟨[("xiaohongshu", ⟨5, true⟩)]⟩ "xiaohongshu" =
      (true, delHandle ⟨[("xiaohongshu", ⟨5, true⟩)]⟩ "xiaohongshu") := by
  refine ⟨?_, ?_⟩
  · exact ((c10_stop ⟨[("xiaohongshu", ⟨5, false⟩)]⟩ "xiaohongshu").1
      ⟨5, false⟩ (by decide) rfl).1
  · exact ((c10_stop ⟨[("xiaohongshu", ⟨5, true⟩)]⟩ "xiaohongshu").2.2
      ⟨5, true⟩ (by decide) rfl).1

end Crawler
